import Mathlib

/-!
# Verification of the NoirWire zk-pool program against its design spec

Shallow embedding of `programs/zk-pool/src` (state accounts, byte codec,
Groth16 verification pipeline, and the three submit instructions), with
theorems settling the frozen claims about the design specification.

Conventions of the embedding:
* Rust `u8` bytes are modelled as `Nat`; a 32-byte word (`[u8; 32]`) is a
  `List Nat` (length 32 where it matters, carried as a hypothesis).
* Rust `u16`/`u32`/`u64` values are modelled as `Nat`.  The only u16
  arithmetic performed by the program is `(cursor + 1) % capacity` with
  `cursor < capacity ≤ 65535`, so the `2^16` wrap can never fire and is
  omitted.  `u64` values produced by `field_to_u64` are sums of 8 bytes and
  stay below `2^64` by construction; `checked_sub` is modelled explicitly.
* Fallible Rust functions (`Result<T>`) become `Except ZkPoolError T`.
* Anchor account/PDA plumbing (discriminators, bumps, signers, seeds) is
  not part of any claim and is omitted from the account structures.
-/

namespace ZkPool

/-- A byte (`u8`) is modelled as `Nat`. -/
abbrev Byte := Nat

/-- A 32-byte word, `[u8; 32]` in the source. -/
abbrev Bytes32 := List Byte

/-- The all-zero 32-byte word `[0u8; 32]`. -/
def zero32 : Bytes32 := List.replicate 32 0

/-- `errors.rs`: the program's error enumeration `ZkPoolError`. -/
inductive ZkPoolError where
  | InvalidMerkleDepth
  | InvalidRootWindow
  | InvalidCircuitType
  | VkHashMismatch
  | AbiHashMismatch
  | InvalidPublicInputCount
  | ProofVerificationFailed
  | RootNotFound
  | NullifierSpent
  | InvalidRecipient
  | ArithmeticOverflow
  | Unauthorized
  | VkNotSet
  | InvalidVkData
  | InvalidProofData
  | FieldOutOfRange
  | AmountTooLarge
  | FeeExceedsAmount
  | InsufficientBalance
  | InvalidNullifierShard
  | PoolPaused
  | NullifierCapacityExceeded
  | InvalidEncoding
  deriving DecidableEq, Repr

/-- `constants.rs`: `MAX_NULLIFIERS_PER_SHARD`. -/
def MAX_NULLIFIERS_PER_SHARD : Nat := 100000

/-- `constants.rs`: circuit identifiers. -/
def CIRCUIT_SHIELD : Nat := 0

/-- `constants.rs`: circuit identifiers. -/
def CIRCUIT_TRANSFER : Nat := 1

/-- `constants.rs`: circuit identifiers. -/
def CIRCUIT_UNSHIELD : Nat := 2

/-- `constants.rs`: public-input counts per circuit. -/
def SHIELD_PUBLIC_INPUTS : Nat := 1

/-- `constants.rs`: public-input counts per circuit. -/
def TRANSFER_PUBLIC_INPUTS : Nat := 4

/-- `constants.rs`: public-input counts per circuit. -/
def UNSHIELD_PUBLIC_INPUTS : Nat := 6

/-- `state.rs`: per-circuit verification-key hash triple `VkHashes`. -/
structure VkHashes where
  shield : Bytes32
  transfer : Bytes32
  unshield : Bytes32
  deriving DecidableEq, Repr

/-- `state.rs`: the pool configuration account `PoolConfig`
(admin pubkey and PDA bump omitted: Anchor plumbing, unused by the claims). -/
structure PoolConfig where
  merkle_depth : Nat
  root_window : Nat
  abi_hash : Bytes32
  vk_hashes : VkHashes
  paused : Bool
  deriving DecidableEq, Repr

/-- `state.rs`: per-circuit verification key storage `VerificationKeyAccount`. -/
structure VerificationKeyAccount where
  circuit : Nat
  n_public : Nat
  vk_data : List Byte
  vk_hash : Bytes32
  deriving DecidableEq, Repr

/-- `state.rs`: `VerificationKeyAccount::vk_data_len`:
`448 + (n_public + 1) * 64`. -/
def VerificationKeyAccount.vk_data_len (n_public : Nat) : Nat :=
  448 + (n_public + 1) * 64

/-- `state.rs`: the ring buffer of recent Merkle roots, `RootsAccount`. -/
structure RootsAccount where
  roots : List Bytes32
  cursor : Nat
  size : Nat
  capacity : Nat
  deriving DecidableEq, Repr

/-- `state.rs`: `RootsAccount::contains_root` — scan of the first `size`
stored entries. -/
def RootsAccount.contains_root (s : RootsAccount) (root : Bytes32) : Bool :=
  (s.roots.take s.size).any (fun r => r == root)

/-- `state.rs`: `RootsAccount::add_root` — write at the cursor (when within
the allocated vector), advance the cursor modulo capacity, saturate `size`. -/
def RootsAccount.add_root (s : RootsAccount) (root : Bytes32) : RootsAccount :=
  { s with
    roots := if s.cursor < s.roots.length then s.roots.set s.cursor root else s.roots
    cursor := (s.cursor + 1) % s.capacity
    size := if s.size < s.capacity then s.size + 1 else s.size }

/-- `state.rs`: nullifier shard account `NullifiersAccount`. -/
structure NullifiersAccount where
  shard : Nat
  nullifiers : List Bytes32
  deriving DecidableEq, Repr

/-- `state.rs`: `NullifiersAccount::is_spent` — linear membership scan. -/
def NullifiersAccount.is_spent (ns : NullifiersAccount) (nullifier : Bytes32) : Bool :=
  ns.nullifiers.any (fun n => n == nullifier)

/-- `state.rs`: `NullifiersAccount::mark_spent` — fail `NullifierSpent` if
present, fail `NullifierCapacityExceeded` unless strictly below
`MAX_NULLIFIERS_PER_SHARD`, else append. -/
def NullifiersAccount.mark_spent (ns : NullifiersAccount) (nullifier : Bytes32) :
    Except ZkPoolError NullifiersAccount :=
  if ns.is_spent nullifier then
    .error .NullifierSpent
  else if ns.nullifiers.length < MAX_NULLIFIERS_PER_SHARD then
    .ok { ns with nullifiers := ns.nullifiers ++ [nullifier] }
  else
    .error .NullifierCapacityExceeded

/-- The account content seen by later transactions after a call to
`mark_spent` on `&mut self`: the updated account on success, the untouched
account when the method returned early with an error. -/
def NullifiersAccount.mark_spent_state (ns : NullifiersAccount) (nullifier : Bytes32) :
    NullifiersAccount :=
  match ns.mark_spent nullifier with
  | .ok ns' => ns'
  | .error _ => ns

/-- `state.rs`: `get_nullifier_shard` — constant shard 0 in the MVP. -/
def get_nullifier_shard (_nullifier : Bytes32) : Nat := 0

/-- `instructions/initialize.rs` lines 95-101: the freshly initialized
roots account (zero-filled preallocated buffer, cursor 0, size 0). -/
def initRoots (root_window : Nat) : RootsAccount :=
  { roots := List.replicate root_window zero32
    cursor := 0
    size := 0
    capacity := root_window }

/-- `verifier.rs`: a G1 curve point (two 32-byte coordinates). -/
structure G1Point where
  x : Bytes32
  y : Bytes32
  deriving DecidableEq, Repr

/-- `verifier.rs`: a G2 curve point; the source's `x: [[u8; 32]; 2]` and
`y: [[u8; 32]; 2]` are flattened into the four coordinate words. -/
structure G2Point where
  x0 : Bytes32
  x1 : Bytes32
  y0 : Bytes32
  y1 : Bytes32
  deriving DecidableEq, Repr

/-- `verifier.rs`: `Groth16Proof`. -/
structure Groth16Proof where
  a : G1Point
  b : G2Point
  c : G1Point
  deriving DecidableEq, Repr

/-- `verifier.rs`: parsed `VerificationKey`. -/
structure VerificationKey where
  alpha_g1 : G1Point
  beta_g2 : G2Point
  gamma_g2 : G2Point
  delta_g2 : G2Point
  ic : List G1Point
  deriving DecidableEq, Repr

/-- The 64-byte slice `bytes[off..off + 64]` (and analogously for other
widths): Rust slicing is `drop` then `take`. -/
def slice (bytes : List Byte) (off len : Nat) : List Byte :=
  (bytes.drop off).take len

/-- `verifier.rs`: `parse_g1_point` — length must be 64; x is the first 32
bytes, y the second 32. -/
def parse_g1_point (bytes : List Byte) : Except ZkPoolError G1Point :=
  if bytes.length = 64 then
    .ok { x := bytes.take 32, y := bytes.drop 32 }
  else
    .error .InvalidVkData

/-- `verifier.rs`: `parse_g2_point` — length must be 128; four consecutive
32-byte coordinates. -/
def parse_g2_point (bytes : List Byte) : Except ZkPoolError G2Point :=
  if bytes.length = 128 then
    .ok { x0 := slice bytes 0 32, x1 := slice bytes 32 32
          y0 := slice bytes 64 32, y1 := slice bytes 96 32 }
  else
    .error .InvalidVkData

/-- `verifier.rs`: `parse_proof` — 256 bytes: A (G1, 64) ‖ B (G2, 128) ‖
C (G1, 64). -/
def parse_proof (proof_bytes : List Byte) : Except ZkPoolError Groth16Proof :=
  if proof_bytes.length = 256 then
    match parse_g1_point (slice proof_bytes 0 64) with
    | .error e => .error e
    | .ok a =>
      match parse_g2_point (slice proof_bytes 64 128) with
      | .error e => .error e
      | .ok b =>
        match parse_g1_point (slice proof_bytes 192 64) with
        | .error e => .error e
        | .ok c => .ok { a := a, b := b, c := c }
  else
    .error .InvalidProofData

/-- `verifier.rs`: the IC-parsing loop of `parse_verification_key` —
`count` points read at 64-byte strides starting at `offset`. -/
def parse_ic_points (vk_bytes : List Byte) : Nat → Nat → Except ZkPoolError (List G1Point)
  | _offset, 0 => .ok []
  | offset, count + 1 =>
    match parse_g1_point (slice vk_bytes offset 64) with
    | .error e => .error e
    | .ok point =>
      match parse_ic_points vk_bytes (offset + 64) count with
      | .error e => .error e
      | .ok rest => .ok (point :: rest)

/-- `verifier.rs`: `parse_verification_key` — expected length
`448 + (n_public + 1) * 64`; alpha (64) ‖ beta (128) ‖ gamma (128) ‖
delta (128) ‖ (n_public + 1) IC points of 64 bytes each. -/
def parse_verification_key (vk_bytes : List Byte) (n_public : Nat) :
    Except ZkPoolError VerificationKey :=
  if vk_bytes.length = 448 + (n_public + 1) * 64 then
    match parse_g1_point (slice vk_bytes 0 64) with
    | .error e => .error e
    | .ok alpha =>
      match parse_g2_point (slice vk_bytes 64 128) with
      | .error e => .error e
      | .ok beta =>
        match parse_g2_point (slice vk_bytes 192 128) with
        | .error e => .error e
        | .ok gamma =>
          match parse_g2_point (slice vk_bytes 320 128) with
          | .error e => .error e
          | .ok delta =>
            match parse_ic_points vk_bytes 448 (n_public + 1) with
            | .error e => .error e
            | .ok ic =>
              .ok { alpha_g1 := alpha, beta_g2 := beta, gamma_g2 := gamma
                    delta_g2 := delta, ic := ic }
  else
    .error .InvalidVkData

/-- `verifier.rs`: `is_zero_g1` — both coordinates equal `[0u8; 32]`. -/
def is_zero_g1 (point : G1Point) : Bool :=
  point.x == zero32 && point.y == zero32

/-- `verifier.rs`: `is_zero_g2` — all four coordinates equal `[0u8; 32]`. -/
def is_zero_g2 (point : G2Point) : Bool :=
  point.x0 == zero32 && point.x1 == zero32 && point.y0 == zero32 && point.y1 == zero32

/-- `verifier.rs`: `validate_proof_structure` — A, B, C must not be the
all-zero point. -/
def validate_proof_structure (proof : Groth16Proof) : Except ZkPoolError Unit :=
  if is_zero_g1 proof.a then .error .InvalidProofData
  else if is_zero_g2 proof.b then .error .InvalidProofData
  else if is_zero_g1 proof.c then .error .InvalidProofData
  else .ok ()

/-- `verifier.rs`: `validate_vk_structure` — only `alpha_g1 ≠ 0` and a
non-empty IC vector are checked (beta, gamma, delta and the individual IC
entries are not). -/
def validate_vk_structure (vk : VerificationKey) : Except ZkPoolError Unit :=
  if is_zero_g1 vk.alpha_g1 then .error .InvalidVkData
  else if vk.ic.isEmpty then .error .InvalidVkData
  else .ok ()

/-- `verifier.rs`: `validate_public_inputs` — each input's byte 31 must be
below `0x30` (coarse BN254 field-range check); the source loop errors at
the first offending input. -/
def validate_public_inputs : List Bytes32 → Except ZkPoolError Unit
  | [] => .ok ()
  | input :: rest =>
    if input.getD 31 0 < 0x30 then validate_public_inputs rest
    else .error .FieldOutOfRange

/-- `verifier.rs`: `verify_groth16` — the shipped placeholder: it runs the
three structural validators and then returns `Ok(())` unconditionally,
performing no pairing computation at all. -/
def verify_groth16 (proof : Groth16Proof) (vk : VerificationKey)
    (public_inputs : List Bytes32) : Except ZkPoolError Unit :=
  match validate_proof_structure proof with
  | .error e => .error e
  | .ok _ =>
    match validate_vk_structure vk with
    | .error e => .error e
    | .ok _ =>
      match validate_public_inputs public_inputs with
      | .error e => .error e
      | .ok _ => .ok ()

/-- `verifier.rs`: `verify_proof` — input-count check, proof decode, key
decode, IC-length sanity check, then `verify_groth16`. -/
def verify_proof (vk_account : VerificationKeyAccount) (proof_bytes : List Byte)
    (public_inputs : List Bytes32) : Except ZkPoolError Unit :=
  if public_inputs.length = vk_account.n_public then
    match parse_proof proof_bytes with
    | .error e => .error e
    | .ok proof =>
      match parse_verification_key vk_account.vk_data vk_account.n_public with
      | .error e => .error e
      | .ok vk =>
        if vk.ic.length = vk_account.n_public + 1 then
          verify_groth16 proof vk public_inputs
        else
          .error .InvalidVkData
  else
    .error .InvalidPublicInputCount

/-- Modelled from the spec: the external pairing evaluator of §6 is not part
of this repository; it is abstracted as a boolean-valued function of the
decoded proof, key and public inputs, reporting whether the identity
e(A,B) = e(alpha,beta)·e(L,gamma)·e(C,delta) with
L = IC[0] + Σ input_i·IC[i+1] holds. -/
def PairingEvaluator : Type :=
  Groth16Proof → VerificationKey → List Bytes32 → Bool

/-- Modelled from the spec: §4.5 step (f) — the pipeline core as the spec
prescribes it: the structural and field-range checks of the source, then
delegation to the pairing evaluator, accepting iff it reports that the
pairing identity holds. -/
def spec_verify_groth16 (pairing : PairingEvaluator) (proof : Groth16Proof)
    (vk : VerificationKey) (public_inputs : List Bytes32) : Except ZkPoolError Unit :=
  match verify_groth16 proof vk public_inputs with
  | .error e => .error e
  | .ok _ =>
    if pairing proof vk public_inputs then .ok () else .error .ProofVerificationFailed

/-- Modelled from the spec: the full verification pipeline with step (f)
delegating to the external pairing evaluator, for comparison with the
shipped `verify_proof`. -/
def spec_verify_proof (pairing : PairingEvaluator)
    (vk_account : VerificationKeyAccount) (proof_bytes : List Byte)
    (public_inputs : List Bytes32) : Except ZkPoolError Unit :=
  if public_inputs.length = vk_account.n_public then
    match parse_proof proof_bytes with
    | .error e => .error e
    | .ok proof =>
      match parse_verification_key vk_account.vk_data vk_account.n_public with
      | .error e => .error e
      | .ok vk =>
        if vk.ic.length = vk_account.n_public + 1 then
          spec_verify_groth16 pairing proof vk public_inputs
        else
          .error .InvalidVkData
  else
    .error .InvalidPublicInputCount

/-- Observable side effects of the submit instructions: emitted events
(timestamps omitted — they come from the external clock) and the lamport
transfer CPI performed by `submit_unshield`. -/
inductive PoolEffect where
  | new_commitment (commitment : Bytes32) (circuit : Nat)
  | nullifier_spent (nullifier : Bytes32) (circuit : Nat)
  | unshielded (recipient : Bytes32) (amount fee : Nat) (nullifier : Bytes32)
  | transfer_lamports (amount : Nat)
  deriving DecidableEq, Repr

/-- `instructions/submit_unshield.rs`: `field_to_u64` — little-endian value
of the first 8 bytes; the remaining 24 bytes must all be zero. -/
def u64_from_le_bytes (bytes : List Byte) : Nat :=
  bytes.foldr (fun b acc => b + 256 * acc) 0

/-- `instructions/submit_unshield.rs`: `field_to_u64`. -/
def field_to_u64 (field : Bytes32) : Except ZkPoolError Nat :=
  if (field.drop 8).all (fun b => b == 0) then
    .ok (u64_from_le_bytes (field.take 8))
  else
    .error .AmountTooLarge

/-- `u64::checked_sub`. -/
def checked_sub (a b : Nat) : Option Nat :=
  if b ≤ a then some (a - b) else none

/-- `instructions/submit_unshield.rs`: `reconstruct_recipient` — low 16
bytes of `lo` followed by low 16 bytes of `hi`; infallible in the source. -/
def reconstruct_recipient (lo hi : Bytes32) : Except ZkPoolError Bytes32 :=
  .ok (lo.take 16 ++ hi.take 16)

/-- `instructions/submit_unshield.rs`: `validate_recipient_roundtrip` —
re-reconstruct and compare with the given pubkey, then require the upper 16
bytes of both limbs to be zero. -/
def validate_recipient_roundtrip (pubkey lo hi : Bytes32) : Except ZkPoolError Unit :=
  match reconstruct_recipient lo hi with
  | .error e => .error e
  | .ok reconstructed =>
    if reconstructed = pubkey then
      if (lo.drop 16).all (fun b => b == 0) then
        if (hi.drop 16).all (fun b => b == 0) then .ok ()
        else .error .InvalidEncoding
      else .error .InvalidEncoding
    else .error .InvalidRecipient

/-- Accounts read by `submit_shield`. -/
structure ShieldAccounts where
  config : PoolConfig
  vk_account : VerificationKeyAccount
  deriving Repr

/-- `instructions/submit_shield.rs`: `submit_shield` — pause gate, input
count, key-hash match, key-set check, proof verification, then the
`NewCommitment` event. -/
def submit_shield (acc : ShieldAccounts) (proof : List Byte)
    (public_inputs : List Bytes32) : Except ZkPoolError (List PoolEffect) :=
  if acc.config.paused then .error .PoolPaused
  else if ¬ public_inputs.length = SHIELD_PUBLIC_INPUTS then .error .InvalidPublicInputCount
  else if ¬ acc.vk_account.vk_hash = acc.config.vk_hashes.shield then .error .VkHashMismatch
  else if acc.config.vk_hashes.shield = zero32 then .error .VkNotSet
  else
    match verify_proof acc.vk_account proof public_inputs with
    | .error e => .error e
    | .ok _ =>
      .ok [PoolEffect.new_commitment (public_inputs.getD 0 zero32) CIRCUIT_SHIELD]

/-- `instructions/submit_transfer.rs` / `submit_unshield.rs`: the lazy
shard initialization performed when the nullifier vector is still empty. -/
def lazy_init_nullifiers (ns : NullifiersAccount) (nullifier : Bytes32) : NullifiersAccount :=
  if ns.nullifiers.isEmpty then
    { shard := get_nullifier_shard nullifier, nullifiers := [] }
  else ns

/-- Accounts touched by `submit_transfer`. -/
structure TransferAccounts where
  config : PoolConfig
  vk_account : VerificationKeyAccount
  roots : RootsAccount
  nullifiers : NullifiersAccount
  deriving Repr

/-- `instructions/submit_transfer.rs`: `submit_transfer` — pause gate,
input count, key-hash checks, root membership, double-spend check, proof
verification, nullifier insertion, events. -/
def submit_transfer (acc : TransferAccounts) (proof : List Byte)
    (public_inputs : List Bytes32) :
    Except ZkPoolError (NullifiersAccount × List PoolEffect) :=
  if acc.config.paused then .error .PoolPaused
  else if ¬ public_inputs.length = TRANSFER_PUBLIC_INPUTS then .error .InvalidPublicInputCount
  else if ¬ acc.vk_account.vk_hash = acc.config.vk_hashes.transfer then .error .VkHashMismatch
  else if acc.config.vk_hashes.transfer = zero32 then .error .VkNotSet
  else
    let root := public_inputs.getD 0 zero32
    let nullifier := public_inputs.getD 1 zero32
    let new_commitment := public_inputs.getD 2 zero32
    if ¬ acc.roots.contains_root root then .error .RootNotFound
    else
      let ns0 := lazy_init_nullifiers acc.nullifiers nullifier
      if ns0.is_spent nullifier then .error .NullifierSpent
      else
        match verify_proof acc.vk_account proof public_inputs with
        | .error e => .error e
        | .ok _ =>
          match ns0.mark_spent nullifier with
          | .error e => .error e
          | .ok ns1 =>
            .ok (ns1, [PoolEffect.nullifier_spent nullifier CIRCUIT_TRANSFER,
                       PoolEffect.new_commitment new_commitment CIRCUIT_TRANSFER])

/-- Accounts touched by `submit_unshield`; `recipient` is the key of the
caller-supplied recipient account. -/
structure UnshieldAccounts where
  config : PoolConfig
  vk_account : VerificationKeyAccount
  roots : RootsAccount
  nullifiers : NullifiersAccount
  recipient : Bytes32
  deriving Repr

/-- `instructions/submit_unshield.rs`: `submit_unshield`, instrumented with
the staged (in-memory) account state: the result's first component is the
error raised, if any; the second is the nullifier account as mutated up to
that point of the sequential execution; the third lists the staged effects.
The check order is exactly the source's, lines 59-179; in particular the
nullifier is inserted (line 130) before the amounts are decoded and the fee
is compared with the amount (lines 133-137). -/
def submit_unshield_staged (acc : UnshieldAccounts) (proof : List Byte)
    (public_inputs : List Bytes32) :
    Option ZkPoolError × NullifiersAccount × List PoolEffect :=
  if acc.config.paused then (some .PoolPaused, acc.nullifiers, [])
  else if ¬ public_inputs.length = UNSHIELD_PUBLIC_INPUTS then
    (some .InvalidPublicInputCount, acc.nullifiers, [])
  else if ¬ acc.vk_account.vk_hash = acc.config.vk_hashes.unshield then
    (some .VkHashMismatch, acc.nullifiers, [])
  else if acc.config.vk_hashes.unshield = zero32 then
    (some .VkNotSet, acc.nullifiers, [])
  else
    let root := public_inputs.getD 0 zero32
    let nullifier := public_inputs.getD 1 zero32
    let recipient_lo := public_inputs.getD 2 zero32
    let recipient_hi := public_inputs.getD 3 zero32
    let public_amount := public_inputs.getD 4 zero32
    let fee := public_inputs.getD 5 zero32
    match reconstruct_recipient recipient_lo recipient_hi with
    | .error e => (some e, acc.nullifiers, [])
    | .ok recipient_pubkey =>
      if ¬ recipient_pubkey = acc.recipient then (some .InvalidRecipient, acc.nullifiers, [])
      else
        match validate_recipient_roundtrip recipient_pubkey recipient_lo recipient_hi with
        | .error e => (some e, acc.nullifiers, [])
        | .ok _ =>
          if ¬ acc.roots.contains_root root then (some .RootNotFound, acc.nullifiers, [])
          else
            let ns0 := lazy_init_nullifiers acc.nullifiers nullifier
            if ns0.is_spent nullifier then (some .NullifierSpent, ns0, [])
            else
              match verify_proof acc.vk_account proof public_inputs with
              | .error e => (some e, ns0, [])
              | .ok _ =>
                match ns0.mark_spent nullifier with
                | .error e => (some e, ns0, [])
                | .ok ns1 =>
                  match field_to_u64 public_amount with
                  | .error e => (some e, ns1, [])
                  | .ok amount =>
                    match field_to_u64 fee with
                    | .error e => (some e, ns1, [])
                    | .ok fee_amount =>
                      if ¬ fee_amount ≤ amount then (some .FeeExceedsAmount, ns1, [])
                      else
                        match checked_sub amount fee_amount with
                        | none => (some .ArithmeticOverflow, ns1, [])
                        | some transfer_amount =>
                          let transfers :=
                            if 0 < transfer_amount then
                              [PoolEffect.transfer_lamports transfer_amount]
                            else []
                          (none, ns1,
                           transfers ++
                             [PoolEffect.nullifier_spent nullifier CIRCUIT_UNSHIELD,
                              PoolEffect.unshielded recipient_pubkey amount fee_amount nullifier])

/-- `submit_unshield` at the transaction boundary.  Modelled from the spec
(§5): the host executes each operation all-or-nothing, discarding every
staged account mutation and effect when the instruction returns an error,
so an erroring run surfaces only the error. -/
def submit_unshield (acc : UnshieldAccounts) (proof : List Byte)
    (public_inputs : List Bytes32) :
    Except ZkPoolError (NullifiersAccount × List PoolEffect) :=
  match submit_unshield_staged acc proof public_inputs with
  | (some e, _, _) => .error e
  | (none, ns, effects) => .ok (ns, effects)

/-- `state.rs`: `VerificationKeyAccount::validate_n_public`. -/
def validate_n_public (vk : VerificationKeyAccount) : Except ZkPoolError Unit :=
  match vk.circuit with
  | 0 =>
    if vk.n_public = SHIELD_PUBLIC_INPUTS then .ok () else .error .InvalidPublicInputCount
  | 1 =>
    if vk.n_public = TRANSFER_PUBLIC_INPUTS then .ok () else .error .InvalidPublicInputCount
  | 2 =>
    if vk.n_public = UNSHIELD_PUBLIC_INPUTS then .ok () else .error .InvalidPublicInputCount
  | _ => .error .InvalidCircuitType

/-- `instructions/set_verification_key.rs`: the `match circuit` selecting
the fixed public-input count (with the source's unreachable `_` arm). -/
def circuit_n_public (circuit : Nat) : Except ZkPoolError Nat :=
  match circuit with
  | 0 => .ok SHIELD_PUBLIC_INPUTS
  | 1 => .ok TRANSFER_PUBLIC_INPUTS
  | 2 => .ok UNSHIELD_PUBLIC_INPUTS
  | _ => .error .InvalidCircuitType

/-- `instructions/set_verification_key.rs`: the `match circuit` writing the
new hash into the config's per-circuit triple. -/
def VkHashes.set_hash (h : VkHashes) (circuit : Nat) (v : Bytes32) : VkHashes :=
  match circuit with
  | 0 => { h with shield := v }
  | 1 => { h with transfer := v }
  | 2 => { h with unshield := v }
  | _ => h

/-- `instructions/set_verification_key.rs`: `set_verification_key`.
The cryptographic digest (`Sha256::digest`, an external collaborator per
spec §6) is abstracted as the function argument `digest`.  Order as in the
source: circuit-kind check, fixed `n`, length check, hash check, store,
`validate_n_public`, config hash-triple update. -/
def set_verification_key (digest : List Byte → Bytes32) (config : PoolConfig)
    (circuit : Nat) (vk_data : List Byte) (vk_hash : Bytes32) :
    Except ZkPoolError (PoolConfig × VerificationKeyAccount) :=
  if ¬ circuit ≤ CIRCUIT_UNSHIELD then .error .InvalidCircuitType
  else
    match circuit_n_public circuit with
    | .error e => .error e
    | .ok n_public =>
      if ¬ vk_data.length = VerificationKeyAccount.vk_data_len n_public then
        .error .InvalidVkData
      else if ¬ digest vk_data = vk_hash then .error .VkHashMismatch
      else
        let vk_account : VerificationKeyAccount :=
          { circuit := circuit, n_public := n_public
            vk_data := vk_data, vk_hash := vk_hash }
        match validate_n_public vk_account with
        | .error e => .error e
        | .ok _ =>
          let config' :=
            { config with vk_hashes := config.vk_hashes.set_hash circuit vk_hash }
          .ok (config', vk_account)

/-! ## Concrete byte vectors

Inputs used to evaluate the embedded program at specific points: a
non-degenerate G1/G2 encoding (leading byte 1), an all-zero G2 encoding,
a well-formed 256-byte proof, well-formed key material for `n_public = 1`
and `n_public = 6`, and small distinguished 32-byte words. -/

/-- A G1 encoding whose x-coordinate is 1 (not the zero point). -/
def g1_one : List Byte := 1 :: List.replicate 63 0

/-- A G2 encoding whose first coordinate is 1 (not the zero point). -/
def g2_one : List Byte := 1 :: List.replicate 127 0

/-- The all-zero G2 encoding (decodes to the additive identity). -/
def g2_zero : List Byte := List.replicate 128 0

/-- A structurally valid 256-byte proof: A, B, C all non-zero. -/
def proof_bytes_ok : List Byte := g1_one ++ g2_one ++ g1_one

/-- Well-formed key bytes for `n_public = 1` (576 bytes), all points
non-zero. -/
def vk_bytes_one : List Byte := g1_one ++ g2_one ++ g2_one ++ g2_one ++ g1_one ++ g1_one

/-- Key bytes for `n_public = 1` whose beta is the all-zero G2 point. -/
def vk_bytes_zero_beta : List Byte :=
  g1_one ++ g2_zero ++ g2_one ++ g2_one ++ g1_one ++ g1_one

/-- Well-formed key bytes for `n_public = 6` (896 bytes), all points
non-zero. -/
def vk_bytes_six : List Byte :=
  g1_one ++ g2_one ++ g2_one ++ g2_one ++
    g1_one ++ g1_one ++ g1_one ++ g1_one ++ g1_one ++ g1_one ++ g1_one

/-- A non-zero 32-byte hash value standing for a published key digest. -/
def hash_one : Bytes32 := List.replicate 32 1

/-- Distinguished 32-byte words for roots and nullifiers. -/
def root_two : Bytes32 := List.replicate 32 2

/-- Distinguished 32-byte words for roots and nullifiers. -/
def nullifier_three : Bytes32 := List.replicate 32 3

/-- The 32-byte little-endian word encoding the amount 100. -/
def amount_100 : Bytes32 := 100 :: List.replicate 31 0

/-- The 32-byte little-endian word encoding the fee 101. -/
def fee_101 : Bytes32 := 101 :: List.replicate 31 0

/-- A key account for the shield circuit holding `vk_bytes_one`. -/
def vk_account_one : VerificationKeyAccount :=
  { circuit := 0, n_public := 1, vk_data := vk_bytes_one, vk_hash := hash_one }

/-- A key account holding the zero-beta key bytes. -/
def vk_account_zero_beta : VerificationKeyAccount :=
  { circuit := 0, n_public := 1, vk_data := vk_bytes_zero_beta, vk_hash := hash_one }

/-- A key account for the unshield circuit holding `vk_bytes_six`. -/
def vk_account_six : VerificationKeyAccount :=
  { circuit := 2, n_public := 6, vk_data := vk_bytes_six, vk_hash := hash_one }

/-- A pool configuration with the unshield key hash published. -/
def config_unshield : PoolConfig :=
  { merkle_depth := 20, root_window := 4, abi_hash := zero32
    vk_hashes := { shield := zero32, transfer := zero32, unshield := hash_one }
    paused := false }

/-- A roots account containing `root_two` as its single valid entry. -/
def roots_with_two : RootsAccount :=
  { roots := [root_two, zero32, zero32, zero32], cursor := 1, size := 1, capacity := 4 }

/-- Accounts for a fee-exceeds-amount unshield run: everything valid up to
the amount/fee comparison. -/
def unshield_acc_fee : UnshieldAccounts :=
  { config := config_unshield, vk_account := vk_account_six, roots := roots_with_two
    nullifiers := { shard := 0, nullifiers := [] }, recipient := zero32 }

/-- Public inputs for that run: amount 100, fee 101. -/
def unshield_inputs_fee : List Bytes32 :=
  [root_two, nullifier_three, zero32, zero32, amount_100, fee_101]

/-- The unshield configuration with the pause flag raised. -/
def config_paused : PoolConfig := { config_unshield with paused := true }

/-- A nullifier shard filled to `MAX_NULLIFIERS_PER_SHARD`. -/
def nullifiers_full : NullifiersAccount :=
  { shard := 0, nullifiers := List.replicate 100000 zero32 }

/-- A sequence of `add_root` calls folded over the window, oldest first. -/
def appendAll (s : RootsAccount) (rs : List Bytes32) : RootsAccount :=
  rs.foldl RootsAccount.add_root s

/-- The index into an append sequence of length `n` whose value occupies
ring slot `i` (capacity `c`): the largest `j < n` with `j ≡ i (mod c)`. -/
def slotOf (n c i : Nat) : Nat :=
  n - 1 - ((n - 1 - i) % c)

/-! ## Theorems -/

set_option maxRecDepth 10000

/-- `List.any` over a replicated list only examines the replicated
element. -/
theorem any_replicate (k : Nat) (z : Bytes32) (p : Bytes32 → Bool) :
    (List.replicate k z).any p = (decide (0 < k) && p z) := by
  induction k with
  | zero => simp
  | succ k ih =>
    rw [List.replicate_succ, List.any_cons, ih]
    cases p z <;> simp

/-- C10: immediately after pool initialization the root window reports no
root as contained — `contains_root` is false for every 32-byte value,
including the all-zero root, despite the zero-filled preallocated buffer. -/
theorem fresh_window_contains_nothing (root_window : Nat) (r : Bytes32) :
    (initRoots root_window).contains_root r = false := by
  simp [initRoots, RootsAccount.contains_root]

/-- C6: whenever the pool's pause flag is set, each of the three submit
operations fails with `PoolPaused` before any other validation, for every
proof and public-input list. -/
theorem pause_gate_preempts_everything
    (cfg : PoolConfig) (vk : VerificationKeyAccount) (roots : RootsAccount)
    (ns : NullifiersAccount) (recipient : Bytes32)
    (proof : List Byte) (inputs : List Bytes32) (h : cfg.paused = true) :
    submit_shield ⟨cfg, vk⟩ proof inputs = .error .PoolPaused ∧
    submit_transfer ⟨cfg, vk, roots, ns⟩ proof inputs = .error .PoolPaused ∧
    submit_unshield ⟨cfg, vk, roots, ns, recipient⟩ proof inputs = .error .PoolPaused := by
  refine ⟨?_, ?_, ?_⟩ <;>
    simp [submit_shield, submit_transfer, submit_unshield, submit_unshield_staged, h]

/-- Witness for C6 at a concrete paused state and garbage submission. -/
theorem pause_gate_preempts_everything_witness :
    submit_shield ⟨config_paused, vk_account_one⟩ [] [] = .error .PoolPaused ∧
    submit_transfer ⟨config_paused, vk_account_one, roots_with_two, ⟨0, []⟩⟩ [] []
      = .error .PoolPaused ∧
    submit_unshield ⟨config_paused, vk_account_one, roots_with_two, ⟨0, []⟩, zero32⟩ [] []
      = .error .PoolPaused :=
  pause_gate_preempts_everything config_paused vk_account_one roots_with_two
    ⟨0, []⟩ zero32 [] [] rfl

/-- C4: `mark_spent` fails `NullifierSpent` on a present nullifier and
leaves the set unchanged; fails `NullifierCapacityExceeded` at capacity and
leaves the set unchanged; otherwise appends, growing the size by exactly 1
and making the inserted nullifier a member. -/
theorem mark_spent_semantics (ns : NullifiersAccount) (n : Bytes32) :
    (ns.is_spent n = true →
      ns.mark_spent n = .error .NullifierSpent ∧ ns.mark_spent_state n = ns) ∧
    (ns.is_spent n = false → ns.nullifiers.length = MAX_NULLIFIERS_PER_SHARD →
      ns.mark_spent n = .error .NullifierCapacityExceeded ∧ ns.mark_spent_state n = ns) ∧
    (ns.is_spent n = false → ns.nullifiers.length < MAX_NULLIFIERS_PER_SHARD →
      ns.mark_spent n = .ok { ns with nullifiers := ns.nullifiers ++ [n] } ∧
      (ns.mark_spent_state n).nullifiers.length = ns.nullifiers.length + 1 ∧
      (ns.mark_spent_state n).is_spent n = true) := by
  refine ⟨fun h => ?_, fun h1 h2 => ?_, fun h1 h2 => ?_⟩
  · simp [NullifiersAccount.mark_spent, NullifiersAccount.mark_spent_state, h]
  · simp [NullifiersAccount.mark_spent, NullifiersAccount.mark_spent_state, h1, h2]
  · have hmem : ¬ n ∈ ns.nullifiers := by
      intro hn
      have := by simpa [NullifiersAccount.is_spent] using h1
      exact this n hn rfl
    simp [NullifiersAccount.mark_spent, NullifiersAccount.mark_spent_state, h1, h2,
      NullifiersAccount.is_spent, hmem]

/-- Witness for C4: all three branches at concrete shards. -/
theorem mark_spent_semantics_witness :
    NullifiersAccount.mark_spent ⟨0, [hash_one]⟩ hash_one = .error .NullifierSpent ∧
    NullifiersAccount.mark_spent nullifiers_full hash_one = .error .NullifierCapacityExceeded ∧
    NullifiersAccount.mark_spent ⟨0, []⟩ hash_one = .ok ⟨0, [hash_one]⟩ := by
  have hfull : nullifiers_full.is_spent hash_one = false := by
    show (List.replicate 100000 zero32).any (fun x => x == hash_one) = false
    rw [any_replicate]
    decide
  have hlen : nullifiers_full.nullifiers.length = MAX_NULLIFIERS_PER_SHARD := by
    rw [show nullifiers_full.nullifiers = List.replicate 100000 zero32 from rfl,
      List.length_replicate, MAX_NULLIFIERS_PER_SHARD]
  exact ⟨((mark_spent_semantics ⟨0, [hash_one]⟩ hash_one).1 (by decide)).1,
         ((mark_spent_semantics nullifiers_full hash_one).2.1 hfull hlen).1,
         ((mark_spent_semantics ⟨0, []⟩ hash_one).2.2 (by decide) (by decide)).1⟩

/-- C8: splitting a 32-byte address into two limbs with zero upper halves,
`reconstruct_recipient` recovers exactly that address (low 16 of `lo`
followed by low 16 of `hi`), and the round-trip validator accepts; whenever
either limb's upper 16 bytes contain a non-zero byte, the validator fails
with `InvalidEncoding`. -/
theorem address_roundtrip (addr lo hi : Bytes32) (ha : addr.length = 32) :
    (reconstruct_recipient (addr.take 16 ++ List.replicate 16 0)
        (addr.drop 16 ++ List.replicate 16 0) = .ok addr ∧
      validate_recipient_roundtrip addr (addr.take 16 ++ List.replicate 16 0)
        (addr.drop 16 ++ List.replicate 16 0) = .ok ()) ∧
    (¬ ((lo.drop 16).all (fun b => b == 0) = true ∧
        (hi.drop 16).all (fun b => b == 0) = true) →
      validate_recipient_roundtrip (lo.take 16 ++ hi.take 16) lo hi
        = .error .InvalidEncoding) := by
  have htake : (addr.take 16).length = 16 := by
    simp [List.length_take, ha]
  have hdrop : (addr.drop 16).length = 16 := by
    simp [List.length_drop, ha]
  have e1 : (addr.take 16 ++ List.replicate 16 0).take 16 = addr.take 16 :=
    List.take_left' htake
  have e2 : (addr.drop 16 ++ List.replicate 16 0).take 16 = addr.drop 16 :=
    List.take_left' hdrop
  have e3 : (addr.take 16 ++ List.replicate 16 0).drop 16 = List.replicate 16 0 :=
    List.drop_left' htake
  have e4 : (addr.drop 16 ++ List.replicate 16 0).drop 16 = List.replicate 16 0 :=
    List.drop_left' hdrop
  refine ⟨⟨?_, ?_⟩, ?_⟩
  · unfold reconstruct_recipient
    rw [e1, e2, List.take_append_drop]
  · unfold validate_recipient_roundtrip reconstruct_recipient
    rw [e1, e2, List.take_append_drop, e3, e4]
    simp [List.mem_replicate]
  · intro hne
    by_cases hlo : (lo.drop 16).all (fun b => b == 0) = true
    · have hhi : ¬ (hi.drop 16).all (fun b => b == 0) = true := fun h => hne ⟨hlo, h⟩
      simp [validate_recipient_roundtrip, reconstruct_recipient, hlo, hhi]
    · simp [validate_recipient_roundtrip, reconstruct_recipient, hlo]

/-- Witness for C8: recovery of a concrete address from its split limbs,
and rejection of a limb with non-zero upper bytes. -/
theorem address_roundtrip_witness :
    reconstruct_recipient (hash_one.take 16 ++ List.replicate 16 0)
      (hash_one.drop 16 ++ List.replicate 16 0) = .ok hash_one ∧
    validate_recipient_roundtrip (zero32.take 16 ++ hash_one.take 16) zero32 hash_one
      = .error .InvalidEncoding :=
  ⟨((address_roundtrip hash_one zero32 hash_one (by decide)).1).1,
    (address_roundtrip hash_one zero32 hash_one (by decide)).2 (by decide)⟩

/-- `parse_g1_point` only ever raises `InvalidVkData`. -/
theorem parse_g1_point_error (b : List Byte) (e : ZkPoolError)
    (h : parse_g1_point b = .error e) : e = .InvalidVkData := by
  unfold parse_g1_point at h
  split at h <;> simp_all

/-- `parse_g2_point` only ever raises `InvalidVkData`. -/
theorem parse_g2_point_error (b : List Byte) (e : ZkPoolError)
    (h : parse_g2_point b = .error e) : e = .InvalidVkData := by
  unfold parse_g2_point at h
  split at h <;> simp_all

/-- `parse_proof` only ever raises `InvalidProofData` or `InvalidVkData`. -/
theorem parse_proof_error (pb : List Byte) (e : ZkPoolError)
    (h : parse_proof pb = .error e) : e = .InvalidProofData ∨ e = .InvalidVkData := by
  unfold parse_proof at h
  split at h
  · split at h
    next e1 heq =>
      have := parse_g1_point_error _ _ heq
      simp_all
    next a heq =>
      split at h
      next e1 heq2 =>
        have := parse_g2_point_error _ _ heq2
        simp_all
      next b heq2 =>
        split at h
        next e1 heq3 =>
          have := parse_g1_point_error _ _ heq3
          simp_all
        next c heq3 => simp at h
  · simp_all

/-- `parse_ic_points` only ever raises `InvalidVkData`. -/
theorem parse_ic_points_error (vk_bytes : List Byte) (count : Nat) :
    ∀ (offset : Nat) (e : ZkPoolError),
      parse_ic_points vk_bytes offset count = .error e → e = .InvalidVkData := by
  induction count with
  | zero => intro offset e h; simp [parse_ic_points] at h
  | succ k ih =>
    intro offset e h
    rw [parse_ic_points] at h
    split at h
    next e1 heq =>
      have := parse_g1_point_error _ _ heq
      simp_all
    next p heq =>
      split at h
      next e1 heq2 =>
        have := ih _ _ heq2
        simp_all
      next rest heq2 => simp at h

/-- `parse_verification_key` only ever raises `InvalidVkData`. -/
theorem parse_verification_key_error (vk_bytes : List Byte) (n_public : Nat)
    (e : ZkPoolError) (h : parse_verification_key vk_bytes n_public = .error e) :
    e = .InvalidVkData := by
  unfold parse_verification_key at h
  split at h
  · split at h
    next e1 heq =>
      have := parse_g1_point_error _ _ heq
      simp_all
    next alpha heq =>
      split at h
      next e1 heq2 =>
        have := parse_g2_point_error _ _ heq2
        simp_all
      next beta heq2 =>
        split at h
        next e1 heq3 =>
          have := parse_g2_point_error _ _ heq3
          simp_all
        next gamma heq3 =>
          split at h
          next e1 heq4 =>
            have := parse_g2_point_error _ _ heq4
            simp_all
          next delta heq4 =>
            split at h
            next e1 heq5 =>
              have := parse_ic_points_error _ _ _ _ heq5
              simp_all
            next ic heq5 => simp at h
  · simp_all

/-- `validate_public_inputs` only ever raises `FieldOutOfRange`. -/
theorem validate_public_inputs_error (inputs : List Bytes32) (e : ZkPoolError)
    (h : validate_public_inputs inputs = .error e) : e = .FieldOutOfRange := by
  induction inputs with
  | nil => simp [validate_public_inputs] at h
  | cons input rest ih =>
    rw [validate_public_inputs] at h
    split at h
    · exact ih h
    · simp_all

/-- `verify_groth16` only ever raises `InvalidProofData`, `InvalidVkData`
or `FieldOutOfRange`. -/
theorem verify_groth16_error (proof : Groth16Proof) (vk : VerificationKey)
    (inputs : List Bytes32) (e : ZkPoolError)
    (h : verify_groth16 proof vk inputs = .error e) :
    e = .InvalidProofData ∨ e = .InvalidVkData ∨ e = .FieldOutOfRange := by
  unfold verify_groth16 at h
  split at h
  next e1 heq =>
    unfold validate_proof_structure at heq
    repeat' split at heq
    all_goals simp_all
  next heq =>
    split at h
    next e1 heq2 =>
      unfold validate_vk_structure at heq2
      repeat' split at heq2
      all_goals simp_all
    next heq2 =>
      split at h
      next e1 heq3 =>
        have := validate_public_inputs_error _ _ heq3
        simp_all
      next heq3 => simp at h

/-- `verify_proof` only ever raises `InvalidPublicInputCount`,
`InvalidProofData`, `InvalidVkData` or `FieldOutOfRange`. -/
theorem verify_proof_error (vk_account : VerificationKeyAccount)
    (proof_bytes : List Byte) (inputs : List Bytes32) (e : ZkPoolError)
    (h : verify_proof vk_account proof_bytes inputs = .error e) :
    e = .InvalidPublicInputCount ∨ e = .InvalidProofData ∨
      e = .InvalidVkData ∨ e = .FieldOutOfRange := by
  unfold verify_proof at h
  split at h
  · split at h
    next e1 heq =>
      rcases parse_proof_error _ _ heq with h' | h' <;> simp_all
    next proof heq =>
      split at h
      next e1 heq2 =>
        have := parse_verification_key_error _ _ _ heq2
        simp_all
      next vk heq2 =>
        split at h
        · rcases verify_groth16_error _ _ _ _ h with h' | h' | h' <;> simp [h']
        · simp_all
  · simp_all

/-- `mark_spent` only ever raises `NullifierSpent` or
`NullifierCapacityExceeded`. -/
theorem mark_spent_error (ns : NullifiersAccount) (n : Bytes32) (e : ZkPoolError)
    (h : ns.mark_spent n = .error e) :
    e = .NullifierSpent ∨ e = .NullifierCapacityExceeded := by
  unfold NullifiersAccount.mark_spent at h
  repeat' split at h
  all_goals simp_all

/-- `field_to_u64` only ever raises `AmountTooLarge`. -/
theorem field_to_u64_error (field : Bytes32) (e : ZkPoolError)
    (h : field_to_u64 field = .error e) : e = .AmountTooLarge := by
  unfold field_to_u64 at h
  split at h <;> simp_all

/-- `validate_recipient_roundtrip` only ever raises `InvalidRecipient` or
`InvalidEncoding`. -/
theorem validate_recipient_roundtrip_error (pk lo hi : Bytes32) (e : ZkPoolError)
    (h : validate_recipient_roundtrip pk lo hi = .error e) :
    e = .InvalidRecipient ∨ e = .InvalidEncoding := by
  unfold validate_recipient_roundtrip reconstruct_recipient at h
  repeat' split at h
  all_goals simp_all

/-- Any error surfaced by the staged unshield run is not
`ArithmeticOverflow`. -/
theorem submit_unshield_staged_no_overflow (acc : UnshieldAccounts)
    (proof : List Byte) (inputs : List Bytes32) (e : ZkPoolError)
    (ns : NullifiersAccount) (effects : List PoolEffect)
    (h : submit_unshield_staged acc proof inputs = (some e, ns, effects)) :
    e ≠ .ArithmeticOverflow := by
  simp only [submit_unshield_staged] at h
  repeat' split at h
  all_goals try (obtain ⟨rfl, -, -⟩ := h)
  all_goals try decide
  all_goals
    first
      | (rename_i heq
         first
           | (simp [reconstruct_recipient] at heq; done)
           | (rcases validate_recipient_roundtrip_error _ _ _ _ heq with rfl | rfl <;> decide)
           | (rcases verify_proof_error _ _ _ _ heq with rfl | rfl | rfl | rfl <;> decide)
           | (rcases mark_spent_error _ _ _ heq with rfl | rfl <;> decide)
           | (obtain rfl := field_to_u64_error _ _ heq; decide)
           | (unfold checked_sub at heq
              split at heq <;> simp_all))
      | (rename_i heq hmoved
         first
           | (simp [reconstruct_recipient] at heq; done)
           | (rcases validate_recipient_roundtrip_error _ _ _ _ heq with rfl | rfl <;> decide)
           | (rcases verify_proof_error _ _ _ _ heq with rfl | rfl | rfl | rfl <;> decide)
           | (rcases mark_spent_error _ _ _ heq with rfl | rfl <;> decide)
           | (obtain rfl := field_to_u64_error _ _ heq; decide)
           | (unfold checked_sub at heq
              split at heq <;> simp_all))

/-- C9: in `submit_unshield`, once the fee ≤ amount check has succeeded,
the checked subtraction computing the net transfer cannot fail: the
`ArithmeticOverflow` error branch is unreachable — no run of the
instruction ever surfaces that error. -/
theorem unshield_overflow_unreachable (acc : UnshieldAccounts)
    (proof : List Byte) (inputs : List Bytes32) :
    submit_unshield acc proof inputs ≠ .error .ArithmeticOverflow := by
  unfold submit_unshield
  intro h
  split at h
  · rename_i e ns effects heq
    simp only [Except.error.injEq] at h
    exact submit_unshield_staged_no_overflow acc proof inputs e ns effects heq h
  · simp_all

/-- C1: the shipped `verify_groth16` is a placeholder — the pipeline accepts
a structurally valid submission unconditionally, with no pairing
computation: on concrete well-formed inputs the code returns `Ok` even
though a pairing evaluator reporting that the identity
e(A,B) = e(alpha,beta)·e(L,gamma)·e(C,delta) does **not** hold would make
the spec's pipeline (§4.5 step f) reject with a verification failure. -/
theorem placeholder_accepts_unsound_proof :
    verify_proof vk_account_one proof_bytes_ok [zero32] = .ok () ∧
    spec_verify_proof (fun _ _ _ => false) vk_account_one proof_bytes_ok [zero32]
      = .error .ProofVerificationFailed := by
  constructor <;> rfl

/-- Counterexample to C2: key material whose beta decodes to the all-zero
G2 point passes the whole pipeline — `validate_vk_structure` checks only
alpha and the IC length, so the claimed structural rejection of *any*
zero point does not happen. -/
theorem zero_beta_key_accepted :
    (parse_verification_key vk_bytes_zero_beta 1).map (fun vk => is_zero_g2 vk.beta_g2)
      = .ok true ∧
    verify_proof vk_account_zero_beta proof_bytes_ok [zero32] = .ok () := by
  constructor <;> rfl

/-- `validate_proof_structure` rejects (with `InvalidProofData`) whenever
A, B or C is the all-zero point. -/
theorem validate_proof_structure_zero (proof : Groth16Proof)
    (h : is_zero_g1 proof.a = true ∨ is_zero_g2 proof.b = true ∨ is_zero_g1 proof.c = true) :
    validate_proof_structure proof = .error .InvalidProofData := by
  unfold validate_proof_structure
  repeat' split
  all_goals simp_all

/-- `validate_vk_structure` rejects (with `InvalidVkData`) whenever alpha is
the all-zero point or the IC vector is empty. -/
theorem validate_vk_structure_zero (vk : VerificationKey)
    (h : is_zero_g1 vk.alpha_g1 = true ∨ vk.ic = []) :
    validate_vk_structure vk = .error .InvalidVkData := by
  unfold validate_vk_structure
  repeat' split
  all_goals simp_all [List.isEmpty_iff]

/-- `validate_proof_structure` only ever raises `InvalidProofData`. -/
theorem validate_proof_structure_error (proof : Groth16Proof) (e : ZkPoolError)
    (h : validate_proof_structure proof = .error e) : e = .InvalidProofData := by
  unfold validate_proof_structure at h
  repeat' split at h
  all_goals simp_all

/-- C2 (amended): the structural stage rejects a zero A, B, C or alpha, or
an empty IC vector — and in those cases the spec's pipeline with any
pairing evaluator coincides with the shipped code, i.e. it fails without
consulting the evaluator.  (Zero beta, gamma, delta or zero individual IC
entries are *not* checked — see `zero_beta_key_accepted`.) -/
theorem structural_zero_rejection (proof : Groth16Proof) (vk : VerificationKey)
    (inputs : List Bytes32)
    (h : is_zero_g1 proof.a = true ∨ is_zero_g2 proof.b = true ∨ is_zero_g1 proof.c = true ∨
      is_zero_g1 vk.alpha_g1 = true ∨ vk.ic = []) :
    (verify_groth16 proof vk inputs = .error .InvalidProofData ∨
      verify_groth16 proof vk inputs = .error .InvalidVkData) ∧
    (∀ pairing : PairingEvaluator,
      spec_verify_groth16 pairing proof vk inputs = verify_groth16 proof vk inputs) := by
  have key : verify_groth16 proof vk inputs = .error .InvalidProofData ∨
      verify_groth16 proof vk inputs = .error .InvalidVkData := by
    rcases h with hp | hp | hp | hv | hv
    · left
      unfold verify_groth16
      rw [validate_proof_structure_zero proof (.inl hp)]
    · left
      unfold verify_groth16
      rw [validate_proof_structure_zero proof (.inr (.inl hp))]
    · left
      unfold verify_groth16
      rw [validate_proof_structure_zero proof (.inr (.inr hp))]
    · unfold verify_groth16
      cases hps : validate_proof_structure proof with
      | error e1 =>
        left
        rw [validate_proof_structure_error _ _ hps]
      | ok u =>
        right
        rw [validate_vk_structure_zero vk (.inl hv)]
    · unfold verify_groth16
      cases hps : validate_proof_structure proof with
      | error e1 =>
        left
        rw [validate_proof_structure_error _ _ hps]
      | ok u =>
        right
        rw [validate_vk_structure_zero vk (.inr hv)]
  refine ⟨key, fun pairing => ?_⟩
  unfold spec_verify_groth16
  rcases key with hk | hk <;> rw [hk]

/-- Witness for C2 (amended): a zero-A proof is rejected, and the spec
pipeline with an always-true evaluator agrees. -/
theorem structural_zero_rejection_witness :
    (verify_groth16 ⟨⟨zero32, zero32⟩, ⟨zero32, zero32, zero32, zero32⟩, ⟨zero32, zero32⟩⟩
        ⟨⟨hash_one, zero32⟩, ⟨zero32, zero32, zero32, zero32⟩,
          ⟨zero32, zero32, zero32, zero32⟩, ⟨zero32, zero32, zero32, zero32⟩,
          [⟨hash_one, zero32⟩]⟩ [] = .error .InvalidProofData ∨
      verify_groth16 ⟨⟨zero32, zero32⟩, ⟨zero32, zero32, zero32, zero32⟩, ⟨zero32, zero32⟩⟩
        ⟨⟨hash_one, zero32⟩, ⟨zero32, zero32, zero32, zero32⟩,
          ⟨zero32, zero32, zero32, zero32⟩, ⟨zero32, zero32, zero32, zero32⟩,
          [⟨hash_one, zero32⟩]⟩ [] = .error .InvalidVkData) ∧
    (∀ pairing : PairingEvaluator,
      spec_verify_groth16 pairing
          ⟨⟨zero32, zero32⟩, ⟨zero32, zero32, zero32, zero32⟩, ⟨zero32, zero32⟩⟩
          ⟨⟨hash_one, zero32⟩, ⟨zero32, zero32, zero32, zero32⟩,
            ⟨zero32, zero32, zero32, zero32⟩, ⟨zero32, zero32, zero32, zero32⟩,
            [⟨hash_one, zero32⟩]⟩ []
        = verify_groth16 ⟨⟨zero32, zero32⟩, ⟨zero32, zero32, zero32, zero32⟩, ⟨zero32, zero32⟩⟩
            ⟨⟨hash_one, zero32⟩, ⟨zero32, zero32, zero32, zero32⟩,
              ⟨zero32, zero32, zero32, zero32⟩, ⟨zero32, zero32, zero32, zero32⟩,
              [⟨hash_one, zero32⟩]⟩ []) :=
  structural_zero_rejection _ _ [] (by left; decide)

/-- Counterexample to C7: with a concrete digest function, empty key bytes
(wrong length) and a claimed hash that differs from the digest of those
bytes, `set_verification_key` fails with the length error `InvalidVkData`,
not with `VkHashMismatch` as the claim's first listed rule demands. -/
theorem set_vk_length_checked_before_hash :
    zero32 ≠ (fun _ : List Byte => hash_one) [] ∧
    set_verification_key (fun _ => hash_one) config_unshield 0 [] zero32
      = .error .InvalidVkData := by
  constructor
  · decide
  · rfl

/-- C7 (amended): `set_verification_key` applies its checks in the source
order — circuit kind first (`InvalidCircuitType` for circuits outside
{0,1,2}), then key length against `448 + 64·(n+1)` (`InvalidVkData`), then
the digest against the claimed hash (`VkHashMismatch`); when all pass it
stores the key and publishes the digest into the config's per-circuit hash
triple. -/
theorem set_verification_key_semantics (digest : List Byte → Bytes32)
    (config : PoolConfig) (circuit : Nat) (vk_data : List Byte) (vk_hash : Bytes32) :
    (2 < circuit →
      set_verification_key digest config circuit vk_data vk_hash
        = .error .InvalidCircuitType) ∧
    (∀ n_public, circuit_n_public circuit = .ok n_public →
      (¬ vk_data.length = VerificationKeyAccount.vk_data_len n_public →
        set_verification_key digest config circuit vk_data vk_hash
          = .error .InvalidVkData) ∧
      (vk_data.length = VerificationKeyAccount.vk_data_len n_public →
        ¬ digest vk_data = vk_hash →
        set_verification_key digest config circuit vk_data vk_hash
          = .error .VkHashMismatch) ∧
      (vk_data.length = VerificationKeyAccount.vk_data_len n_public →
        digest vk_data = vk_hash →
        set_verification_key digest config circuit vk_data vk_hash
          = .ok ({ config with vk_hashes := config.vk_hashes.set_hash circuit vk_hash },
              { circuit := circuit, n_public := n_public
                vk_data := vk_data, vk_hash := vk_hash }))) := by
  constructor
  · intro hgt
    unfold set_verification_key
    rw [if_pos]
    simp only [CIRCUIT_UNSHIELD]
    omega
  · intro n_public hn
    have hc : circuit = 0 ∧ n_public = SHIELD_PUBLIC_INPUTS ∨
        circuit = 1 ∧ n_public = TRANSFER_PUBLIC_INPUTS ∨
        circuit = 2 ∧ n_public = UNSHIELD_PUBLIC_INPUTS := by
      rcases circuit with _ | _ | _ | c
      · simp [circuit_n_public] at hn
        simp [hn.symm]
      · simp [circuit_n_public] at hn
        simp [hn.symm]
      · simp [circuit_n_public] at hn
        simp [hn.symm]
      · simp [circuit_n_public] at hn
    refine ⟨fun hlen => ?_, fun hlen hhash => ?_, fun hlen hhash => ?_⟩
    all_goals
      rcases hc with ⟨rfl, rfl⟩ | ⟨rfl, rfl⟩ | ⟨rfl, rfl⟩ <;>
        simp [set_verification_key, circuit_n_public, validate_n_public,
          VkHashes.set_hash, CIRCUIT_UNSHIELD, hlen]
    all_goals simp [hhash]

/-- Witness for C7: a successful key-set for the shield circuit publishing
`hash_one`, and a hash-mismatch rejection for the same bytes. -/
theorem set_verification_key_semantics_witness :
    set_verification_key (fun _ => hash_one) config_unshield 0 vk_bytes_one hash_one
      = .ok ({ config_unshield with
                vk_hashes := config_unshield.vk_hashes.set_hash 0 hash_one },
          { circuit := 0, n_public := 1, vk_data := vk_bytes_one, vk_hash := hash_one }) ∧
    set_verification_key (fun _ => hash_one) config_unshield 0 vk_bytes_one zero32
      = .error .VkHashMismatch :=
  ⟨(((set_verification_key_semantics (fun _ => hash_one) config_unshield 0
        vk_bytes_one hash_one).2 1 rfl).2.2 (by decide) rfl),
    (((set_verification_key_semantics (fun _ => hash_one) config_unshield 0
        vk_bytes_one zero32).2 1 rfl).2.1 (by decide) (by decide))⟩

/-- Unfolding one append from the right. -/
theorem appendAll_append_one (s : RootsAccount) (rs : List Bytes32) (r : Bytes32) :
    appendAll s (rs ++ [r]) = (appendAll s rs).add_root r := by
  simp [appendAll, List.foldl_append]

/-- Decrementing under `mod` when the remainder is positive. -/
theorem mod_pred (a c : Nat) (hc : 0 < c) (h : a % c ≠ 0) :
    (a - 1) % c = a % c - 1 := by
  have hd := Nat.div_add_mod a c
  have hlt := Nat.mod_lt a hc
  have h1 : a - 1 = c * (a / c) + (a % c - 1) := by omega
  rw [h1, Nat.mul_add_mod]
  exact Nat.mod_eq_of_lt (by omega)

/-- Before wraparound each slot holds the append of the same index. -/
theorem slotOf_self (n c i : Nat) (hi : i < n) (hn : n ≤ c) : slotOf n c i = i := by
  unfold slotOf
  rw [Nat.mod_eq_of_lt (by omega)]
  omega

/-- The freshly appended element lands in slot `n % c`. -/
theorem slotOf_last (n c : Nat) (hc : 0 < c) : slotOf (n + 1) c (n % c) = n := by
  unfold slotOf
  have hd := Nat.div_add_mod n c
  have hlt := Nat.mod_lt n hc
  rw [show n + 1 - 1 - n % c = c * (n / c) from by omega, Nat.mul_mod_right]
  omega

/-- Appending does not disturb the other slots. -/
theorem slotOf_succ_ne (n c i : Nat) (hc : 0 < c) (hi : i < c) (hne : i ≠ n % c)
    (hin : i < n) : slotOf (n + 1) c i = slotOf n c i := by
  have hd := Nat.div_add_mod (n - i) c
  have hmod : (n - i) % c ≠ 0 := by
    intro h0
    apply hne
    have hrw : n = i + c * ((n - i) / c) := by omega
    rw [hrw, Nat.add_mul_mod_self_left]
    exact (Nat.mod_eq_of_lt hi).symm
  have h2 : (n - 1 - i) % c = (n - i) % c - 1 := by
    rw [show n - 1 - i = n - i - 1 from by omega, mod_pred (n - i) c hc hmod]
  have hle : (n - i) % c ≤ n - i := Nat.mod_le _ _
  unfold slotOf
  rw [show n + 1 - 1 - i = n - i from by omega, h2]
  omega

/-- The slot source index is below the number of appends. -/
theorem slotOf_lt (n c i : Nat) (hi : i < n) : slotOf n c i < n := by
  unfold slotOf
  generalize (n - 1 - i) % c = t
  omega

/-- After wraparound the slot source index is within the last `c` appends. -/
theorem slotOf_ge (n c i : Nat) (hc : 0 < c) : n - c ≤ slotOf n c i := by
  unfold slotOf
  have h := Nat.mod_lt (n - 1 - i) hc
  generalize hx : (n - 1 - i) % c = t at h
  omega

/-- Every index among the last `c` appends is some slot's source. -/
theorem slotOf_of_index (n c j : Nat) (hc : 0 < c) (hj1 : n - c ≤ j) (hj2 : j < n) :
    slotOf n c (j % c) = j := by
  unfold slotOf
  have hd := Nat.div_add_mod j c
  have hjm := Nat.mod_lt j hc
  rw [show n - 1 - j % c = (n - 1 - j) + c * (j / c) from by omega,
    Nat.add_mul_mod_self_left, Nat.mod_eq_of_lt (by omega)]
  omega

/-- The ring-buffer state reached from a fresh window by a sequence of
appends: capacity fixed, cursor = number of appends mod capacity, size
saturating, and each slot `i` holding the latest append whose index is
congruent to `i` modulo the capacity. -/
theorem appendAll_spec (c : Nat) (hc : 0 < c) (rs : List Bytes32) :
    (appendAll (initRoots c) rs).capacity = c ∧
    (appendAll (initRoots c) rs).cursor = rs.length % c ∧
    (appendAll (initRoots c) rs).size = min rs.length c ∧
    (appendAll (initRoots c) rs).roots.length = c ∧
    (∀ i, i < c →
      (appendAll (initRoots c) rs).roots[i]? =
        if i < rs.length then rs[slotOf rs.length c i]? else some zero32) := by
  induction rs using List.reverseRecOn with
  | nil =>
    refine ⟨rfl, by simp [appendAll, initRoots], by simp [appendAll, initRoots],
      by simp [appendAll, initRoots], ?_⟩
    intro i hi
    simp [appendAll, initRoots, List.getElem?_replicate, hi]
  | append_singleton rs r ih =>
    obtain ⟨hcap, hcur, hsz, hlen, hget⟩ := ih
    rw [appendAll_append_one]
    set s := appendAll (initRoots c) rs with hs
    set n := rs.length with hn
    have hcc : s.cursor < c := by
      rw [hcur]
      exact Nat.mod_lt _ hc
    have hclen : s.cursor < s.roots.length := by
      rw [hlen]
      exact hcc
    refine ⟨by simp [RootsAccount.add_root, hcap], ?_, ?_, ?_, ?_⟩
    · simp only [RootsAccount.add_root, hcap, hcur, List.length_append,
        List.length_cons, List.length_nil]
      rw [Nat.mod_add_mod]
    · simp only [RootsAccount.add_root, List.length_append, List.length_cons,
        List.length_nil]
      rw [hsz, hcap]
      split <;> omega
    · simp only [RootsAccount.add_root, if_pos hclen, List.length_set]
      exact hlen
    · intro i hi
      simp only [RootsAccount.add_root, if_pos hclen, List.length_append,
        List.length_cons, List.length_nil]
      rw [List.getElem?_set]
      by_cases hci : s.cursor = i
      · rw [if_pos hci, if_pos (hci ▸ hclen)]
        have hieq : i = n % c := by rw [← hci, hcur]
        have hin1 : i < n + 1 := by
          have := Nat.mod_le n c
          omega
        rw [if_pos (by omega), hieq, slotOf_last n c hc,
          List.getElem?_append_right (by omega)]
        simp
      · rw [if_neg hci, hget i hi]
        have hine : i ≠ n % c := by
          rw [hcur] at hci
          exact fun h => hci h.symm
        by_cases hin : i < n
        · rw [if_pos hin, if_pos (by omega), slotOf_succ_ne n c i hc hi hine hin,
            List.getElem?_append_left (slotOf_lt n c i hin)]
        · have hnc : n < c := by omega
          have : n % c = n := Nat.mod_eq_of_lt hnc
          rw [if_neg hin, if_neg (by omega)]

/-- `contains_root` on a window reached by appends holds exactly for the
logically most-recent `min n c` appended roots. -/
theorem contains_appendAll (c : Nat) (hc : 0 < c) (rs : List Bytes32) (x : Bytes32) :
    (appendAll (initRoots c) rs).contains_root x = true ↔
      x ∈ rs.drop (rs.length - min rs.length c) := by
  obtain ⟨hcap, hcur, hsz, hlen, hget⟩ := appendAll_spec c hc rs
  set s := appendAll (initRoots c) rs with hs
  set n := rs.length with hn
  have hL : s.contains_root x = true ↔
      ∃ i, i < min n c ∧ rs[slotOf n c i]? = some x := by
    unfold RootsAccount.contains_root
    rw [List.any_eq_true]
    constructor
    · rintro ⟨y, hy, hyx⟩
      rw [beq_iff_eq] at hyx
      subst hyx
      rw [List.mem_iff_getElem?] at hy
      obtain ⟨i, hi⟩ := hy
      rw [List.getElem?_take] at hi
      split at hi
      · rename_i hilt
        rw [hsz] at hilt
        refine ⟨i, hilt, ?_⟩
        have hg := hget i (by omega)
        rw [if_pos (by omega)] at hg
        rw [hg] at hi
        exact hi
      · exact absurd hi (by simp)
    · rintro ⟨i, hic, hix⟩
      have hi' : (s.roots.take s.size)[i]? = some x := by
        rw [List.getElem?_take, if_pos (by rw [hsz]; exact hic)]
        have hg := hget i (by omega)
        rw [if_pos (by omega)] at hg
        rw [hg]
        exact hix
      exact ⟨x, List.mem_iff_getElem?.mpr ⟨i, hi'⟩, by simp⟩
  have hR : x ∈ rs.drop (n - min n c) ↔
      ∃ j, n - min n c ≤ j ∧ rs[j]? = some x := by
    rw [List.mem_iff_getElem?]
    constructor
    · rintro ⟨k, hk⟩
      rw [List.getElem?_drop] at hk
      exact ⟨n - min n c + k, Nat.le_add_right _ _, hk⟩
    · rintro ⟨j, hj1, hj2⟩
      refine ⟨j - (n - min n c), ?_⟩
      rw [List.getElem?_drop, Nat.add_sub_cancel' hj1]
      exact hj2
  rw [hL, hR]
  constructor
  · rintro ⟨i, hi, hix⟩
    refine ⟨slotOf n c i, ?_, hix⟩
    by_cases hnc : n ≤ c
    · rw [slotOf_self n c i (lt_of_lt_of_le hi (min_le_left _ _)) hnc,
        Nat.min_eq_left hnc, Nat.sub_self]
      exact Nat.zero_le i
    · rw [Nat.min_eq_right (le_of_lt (Nat.not_le.mp hnc))]
      exact slotOf_ge n c i hc
  · rintro ⟨j, hj1, hjx⟩
    have hjn : j < n := by
      obtain ⟨h, -⟩ := List.getElem?_eq_some.mp hjx
      exact h
    by_cases hnc : n ≤ c
    · refine ⟨j, ?_, ?_⟩
      · rw [Nat.min_eq_left hnc]
        exact hjn
      · rw [slotOf_self n c j hjn hnc]
        exact hjx
    · rw [Nat.min_eq_right (le_of_lt (Nat.not_le.mp hnc))] at hj1
      refine ⟨j % c, ?_, ?_⟩
      · rw [Nat.min_eq_right (le_of_lt (Nat.not_le.mp hnc))]
        exact Nat.mod_lt j hc
      · rw [slotOf_of_index n c j hc hj1 hjn]
        exact hjx

/-- Counterexample to C5: for a window of capacity 1 (a legal capacity,
1..=256), after appending capacity + 1 = 2 pairwise-distinct roots the
cursor is (c+1) mod c = 0 — not 1 as the claim states. -/
theorem root_window_cursor_capacity_one :
    hash_one ≠ root_two ∧
    (appendAll (initRoots 1) [hash_one, root_two]).cursor = 0 :=
  ⟨by decide, by rfl⟩

/-- C5 (amended): from a fresh window of capacity c ≥ 2, after appending
c+1 pairwise-distinct roots `contains_root` holds for each of the last c
appended roots, is false for the first appended root, and the cursor
equals 1 (for c = 1 the cursor is 0 instead); in general, over any fresh
window, `contains_root` is true iff the queried root equals one of the
logically most-recent `size = min n capacity` appended entries. -/
theorem root_window_wraparound (c : Nat) (hc : 2 ≤ c) (rs : List Bytes32)
    (hlen : rs.length = c + 1) (hdist : rs.Pairwise (· ≠ ·)) :
    (∀ x ∈ rs.drop 1, (appendAll (initRoots c) rs).contains_root x = true) ∧
    (appendAll (initRoots c) rs).contains_root (rs.getD 0 zero32) = false ∧
    (appendAll (initRoots c) rs).cursor = 1 ∧
    (∀ c', 1 ≤ c' → ∀ (rs' : List Bytes32) (x : Bytes32),
      (appendAll (initRoots c') rs').contains_root x = true ↔
        x ∈ rs'.drop (rs'.length - min rs'.length c')) := by
  have hc0 : 0 < c := by omega
  have hdrop : rs.length - min rs.length c = 1 := by
    rw [hlen, Nat.min_eq_right (by omega)]
    omega
  have hiff := contains_appendAll c hc0 rs
  refine ⟨?_, ?_, ?_, ?_⟩
  · intro x hx
    rw [hiff x, hdrop]
    exact hx
  · cases rs with
    | nil => simp at hlen
    | cons hd tl =>
      have hdm : ¬ hd ∈ tl := by
        rw [List.pairwise_cons] at hdist
        intro hmem
        exact hdist.1 hd hmem rfl
      rw [show (hd :: tl).getD 0 zero32 = hd from rfl, Bool.eq_false_iff]
      intro hcon
      rw [hiff hd, hdrop] at hcon
      simp only [List.drop_succ_cons, List.drop_zero] at hcon
      exact hdm hcon
  · obtain ⟨-, hcur, -, -, -⟩ := appendAll_spec c hc0 rs
    rw [hcur, hlen, Nat.add_mod_left]
    exact Nat.mod_eq_of_lt (by omega)
  · intro c' hc' rs' x
    exact contains_appendAll c' (by omega) rs' x

/-- Witness for C5 (amended): capacity 2, three distinct appended roots. -/
theorem root_window_wraparound_witness :
    (appendAll (initRoots 2) [hash_one, root_two, nullifier_three]).contains_root
      nullifier_three = true ∧
    (appendAll (initRoots 2) [hash_one, root_two, nullifier_three]).contains_root
      ([hash_one, root_two, nullifier_three].getD 0 zero32) = false ∧
    (appendAll (initRoots 2) [hash_one, root_two, nullifier_three]).cursor = 1 := by
  have h := root_window_wraparound 2 (by omega) [hash_one, root_two, nullifier_three]
    rfl (by decide)
  exact ⟨h.1 nullifier_three (by decide), h.2.1, h.2.2.1⟩

/-- Counterexample to C3: in the sequential execution of `submit_unshield`
(amount 100, fee 101, everything else valid), at the moment the
`FeeExceedsAmount` error is raised the in-memory nullifier account
*already contains* the nullifier — the fee ≤ amount precondition is
checked only after the nullifier insertion of line 130, not before it. -/
theorem fee_checked_after_nullifier_insertion :
    submit_unshield_staged unshield_acc_fee proof_bytes_ok unshield_inputs_fee
      = (some .FeeExceedsAmount, ⟨0, [nullifier_three]⟩, []) := by
  rfl

/-- C3 (amended): an unshield submission that passes every other check but
has decoded fee > decoded amount fails with `FeeExceedsAmount`; at the
transaction boundary the host discards all staged mutations, so no state
change survives, and no value-transfer effect is even staged — although in
program order the nullifier insertion happens before the fee check. -/
theorem fee_exceeds_amount_rejected (acc : UnshieldAccounts) (proof : List Byte)
    (inputs : List Bytes32)
    (hp : acc.config.paused = false)
    (hlen : inputs.length = UNSHIELD_PUBLIC_INPUTS)
    (hhash : acc.vk_account.vk_hash = acc.config.vk_hashes.unshield)
    (hset : ¬ acc.config.vk_hashes.unshield = zero32)
    (hrec : (inputs.getD 2 zero32).take 16 ++ (inputs.getD 3 zero32).take 16
      = acc.recipient)
    (hrt : validate_recipient_roundtrip acc.recipient (inputs.getD 2 zero32)
      (inputs.getD 3 zero32) = .ok ())
    (hroot : acc.roots.contains_root (inputs.getD 0 zero32) = true)
    (hns : (lazy_init_nullifiers acc.nullifiers (inputs.getD 1 zero32)).is_spent
      (inputs.getD 1 zero32) = false)
    (hvp : verify_proof acc.vk_account proof inputs = .ok ())
    (hcap : (lazy_init_nullifiers acc.nullifiers (inputs.getD 1 zero32)).nullifiers.length
      < MAX_NULLIFIERS_PER_SHARD)
    (amount fee : Nat)
    (hamt : field_to_u64 (inputs.getD 4 zero32) = .ok amount)
    (hfee : field_to_u64 (inputs.getD 5 zero32) = .ok fee)
    (hlt : amount < fee) :
    submit_unshield acc proof inputs = .error .FeeExceedsAmount ∧
    (submit_unshield_staged acc proof inputs).2.2 = [] := by
  have hnle : ¬ fee ≤ amount := by omega
  have hstaged : submit_unshield_staged acc proof inputs
      = (some .FeeExceedsAmount,
         { lazy_init_nullifiers acc.nullifiers (inputs.getD 1 zero32) with
           nullifiers :=
             (lazy_init_nullifiers acc.nullifiers (inputs.getD 1 zero32)).nullifiers
               ++ [inputs.getD 1 zero32] }, []) := by
    simp only [List.getD_eq_getElem?_getD] at hrec hrt hroot hns hcap hamt hfee
    simp [submit_unshield_staged, hp, hlen, hhash, hset, reconstruct_recipient, hrec,
      hrt, hroot, hns, hvp, hamt, hfee, hnle, NullifiersAccount.mark_spent, hcap]
  refine ⟨?_, ?_⟩
  · simp [submit_unshield, hstaged]
  · rw [hstaged]

/-- Witness for C3 (amended) at the concrete amount-100 / fee-101 run. -/
theorem fee_exceeds_amount_rejected_witness :
    submit_unshield unshield_acc_fee proof_bytes_ok unshield_inputs_fee
      = .error .FeeExceedsAmount ∧
    (submit_unshield_staged unshield_acc_fee proof_bytes_ok unshield_inputs_fee).2.2
      = [] :=
  fee_exceeds_amount_rejected unshield_acc_fee proof_bytes_ok unshield_inputs_fee
    rfl rfl rfl (by decide) rfl rfl (by rfl) rfl (by rfl) (by decide)
    100 101 rfl rfl (by decide)

end ZkPool
